import Mathlib

/-!
Verification development for the replay-cli recordings core
(`src/unnamed/part_002`, current variant) and the retry helper
(`src/unnamed/part_001`).

The event-log fold (`readRecordings`), the status update guard
(`updateStatus`), listing/filtering, asset reference counting
(`removeRecordingAssets`), log compaction (`removeRecording`), the upload
operations (`doUploadRecording`, `doUploadCrash`, `uploadAllRecordings`) and
the retry/backoff wrapper are shallowly embedded as pure Lean functions.

Modelling conventions, fixed once here:
* A log file is a `List Line`, one element per line of `recordings.log` as
  split on newlines.  `Line.junk` is a line on which `JSON.parse` throws
  (including blank lines); `Line.entry` is a line that parses and whose
  `kind` matches one of the recognized event kinds with well-formed fields;
  `Line.extra` is a line that parses as JSON but is not a recognized event
  (the `switch` in `readRecordings` falls through), carrying its `id` field
  if any, since the `removeRecording` rewrite inspects `obj.id` on every
  parsed line.
* JavaScript truthiness of optional strings (`recording.recordingId`,
  `recording.path`) is translated as `Option.isSome`; recording ids and
  paths are opaque identifiers for which the empty string does not occur.
* The network client and the filesystem are an explicit environment
  (`UploadEnv`, a `disk : List String` of existing files); remote calls and
  log appends are recorded in an action trace, serialized in program order
  (the `p-map` concurrency bound is recorded as data, interleavings are not
  modelled).
* The jsonata string-filter branch of `filterRecordings` is not modelled;
  the callers in scope pass a function filter or none.
-/

/-- The `status` field of a recording
(`RecordingEntry["status"]` in `src/types.ts`). -/
inductive RecStatus where
  | unknown
  | startedWrite
  | onDisk
  | startedUpload
  | uploaded
  | unusable
  | crashed
  | crashUploaded
deriving DecidableEq, Repr

/-- Position of a status in the lifecycle chain
`unknown < startedWrite < onDisk < startedUpload < uploaded` used by the
spec's monotonicity property; the three failure statuses are not on the
chain and are given ranks only so the function is total. -/
def statusRank : RecStatus → Nat
  | .unknown => 0
  | .startedWrite => 1
  | .onDisk => 2
  | .startedUpload => 3
  | .uploaded => 4
  | .unusable => 5
  | .crashed => 6
  | .crashUploaded => 7

/-- An original source attached to a source map
(`originalSourceAdded` pushes `{ path, parentOffset }`). -/
structure OriginalSource where
  path : String
  parentOffset : Nat
deriving DecidableEq, Repr

/-- A source map entry as pushed by the `sourcemapAdded` case of
`readRecordings`. -/
structure SourceMapEntry where
  id : String
  path : String
  baseURL : String
  targetContentHash : String
  targetURLHash : String
  targetMapURLHash : String
  originalSources : List OriginalSource
deriving DecidableEq, Repr

/-- One element of a recording's `crashData` array: either a payload carried
by a `crashData` log event (an opaque blob to this module) or the synthetic
`{ kind: "recordingMetadata", recordingId }` marker pushed by
`doUploadCrash`. -/
inductive CrashData where
  | payload (data : String)
  | recordingMetadata (recordingId : String)
deriving DecidableEq, Repr

/-- `RecordingEntry`: the reconstructed state of one recording.  `createTime`
keeps the raw numeric `timestamp`; `metadata` is an association list in
insertion order (values restricted to strings, the only shape the claims
exercise). -/
structure RecordingEntry where
  id : String
  createTime : Nat
  buildId : String
  runtime : String
  metadata : List (String × String)
  sourcemaps : List SourceMapEntry
  status : RecStatus
  path : Option String
  server : Option String
  recordingId : Option String
  unusableReason : Option String
  crashData : Option (List CrashData)
deriving DecidableEq, Repr

/-- A well-formed log event, one constructor per recognized `kind` of the
`switch` in `readRecordings`.  Fields that no code path ever reads (the
`timestamp` of events other than `createRecording`, the `server` tag of
`crashUploaded`) are elided. -/
inductive LogEntry where
  | createRecording (id : String) (timestamp : Nat) (buildId : String)
  | addMetadata (id : String) (metadata : List (String × String))
  | writeStarted (id : String) (path : String)
  | writeFinished (id : String)
  | uploadStarted (id : String) (server : String) (recordingId : String)
  | uploadFinished (id : String)
  | recordingUnusable (id : String) (reason : String)
  | crashed (id : String)
  | crashData (id : String) (data : String)
  | crashUploaded (id : String)
  | sourcemapAdded (id : String) (recordingId : String) (path : String)
      (baseURL : String) (targetContentHash : String) (targetURLHash : String)
      (targetMapURLHash : String)
  | originalSourceAdded (recordingId : String) (path : String)
      (parentId : String) (parentOffset : Nat)
deriving DecidableEq, Repr

/-- The `id` field of the JSON object of a log entry, as read by the
`removeRecording` rewrite (`obj.id`).  Note that for `sourcemapAdded` this is
the source map's own id, not the owning recording's id, and that
`originalSourceAdded` has no `id` field at all. -/
def LogEntry.idField : LogEntry → Option String
  | .createRecording id _ _ => some id
  | .addMetadata id _ => some id
  | .writeStarted id _ => some id
  | .writeFinished id => some id
  | .uploadStarted id _ _ => some id
  | .uploadFinished id => some id
  | .recordingUnusable id _ => some id
  | .crashed id => some id
  | .crashData id _ => some id
  | .crashUploaded id => some id
  | .sourcemapAdded id _ _ _ _ _ _ => some id
  | .originalSourceAdded _ _ _ _ => none

/-- One line of `recordings.log`.  `junk` fails `JSON.parse` (this includes
blank lines); `entry` parses into a recognized well-formed event; `extra`
parses as JSON but is not a recognized event, with `idField` its `id` field
when it has one. -/
inductive Line where
  | junk (raw : String)
  | entry (e : LogEntry)
  | extra (idField : Option String)
deriving DecidableEq, Repr

/-- The `id` field of a parsed line (`obj.id` after a successful
`JSON.parse`); meaningless for `junk` lines, which throw before the access. -/
def Line.idField : Line → Option String
  | .junk _ => none
  | .entry e => e.idField
  | .extra i => i

/-- Characters before the first dash. -/
def upToDash : List Char → List Char
  | [] => []
  | c :: cs => if c = '-' then [] else c :: upToDash cs

/-- Characters after the first dash, or `none` when there is no dash. -/
def afterDash : List Char → Option (List Char)
  | [] => none
  | c :: cs => if c = '-' then some cs else afterDash cs

/-- `getBuildRuntime`: the lazy regex (dot-star-lazy, dash, captured
dot-star-lazy, dash) captures the text between the first and second dash of
the build id, or yields "unknown" when the build id has no second dash
(build ids contain no newline, so the dot restriction is immaterial). -/
def getBuildRuntime (buildId : String) : String :=
  match afterDash buildId.toList with
  | none => "unknown"
  | some rest =>
    match afterDash rest with
    | none => "unknown"
    | some _ => String.mk (upToDash rest)

/-- Whether `p` is an initial segment of `l` (character comparison). -/
def leadsWith : List Char → List Char → Bool
  | [], _ => true
  | _ :: _, [] => false
  | p :: ps, c :: cs => p = c && leadsWith ps cs

/-- Whether `pat` occurs in `l` at any position. -/
def subSearch (pat : List Char) : List Char → Bool
  | [] => leadsWith pat []
  | c :: cs => leadsWith pat (c :: cs) || subSearch pat cs

/-- Substring test, used for the "No interesting content" filter
(`String.prototype.includes`). -/
def strContains (s pat : String) : Bool :=
  subSearch pat.toList s.toList

/-- Value of a key in a string-keyed association list (property read). -/
def lookupKey (m : List (String × String)) (k : String) : Option String :=
  (m.find? (fun kv => kv.1 == k)).map (fun kv => kv.2)

/-- Property assignment on an association list: overwrite the key in place if
present, else append it. -/
def setKey (m : List (String × String)) (k v : String) : List (String × String) :=
  if m.any (fun kv => kv.1 == k) then
    m.map (fun kv => if kv.1 == k then (k, v) else kv)
  else m ++ [(k, v)]

/-- `Object.assign(recording.metadata, metadata)`: assign every key of
`updates` into `base`, in order. -/
def assignMeta (base updates : List (String × String)) : List (String × String) :=
  updates.foldl (fun acc kv => setKey acc kv.1 kv.2) base

/-- JavaScript truthiness of `recording.metadata.title` (absent or empty is
falsy). -/
def metaTitleTruthy (m : List (String × String)) : Bool :=
  match lookupKey m "title" with
  | some t => t != ""
  | none => false

/-- Modelled from the spec: the `./generateDefaultTitle` module imported by
the recordings file is not among the provided sources.  The spec says only
that a default `title` is synthesized from the metadata when absent; we
synthesize it from the `uri` metadata key, matching the shape of the older
in-repo variant (`Replay of <host>`).  No claim depends on the produced
string. -/
def generateDefaultTitle (m : List (String × String)) : Option String :=
  (lookupKey m "uri").map (fun host => "Replay of " ++ host)

/-- `updateStatus`: once a recording is `unusable` or `crashUploaded`, or
`crashed` and the update is not to `crashUploaded`, the update is ignored;
otherwise the new status is applied unconditionally. -/
def updateStatusFn (old new : RecStatus) : RecStatus :=
  if old = .unusable ∨ old = .crashUploaded ∨
      (old = .crashed ∧ new ≠ .crashUploaded) then
    old
  else new

/-- Apply `f` to the first element satisfying `p`, leaving the rest unchanged
(`Array.prototype.find` followed by in-place mutation). -/
def updateFirst {α : Type} (p : α → Bool) (f : α → α) : List α → List α
  | [] => []
  | x :: xs => if p x then f x :: xs else x :: updateFirst p f xs

/-- The merged metadata after an `addMetadata` event: `Object.assign`, then
synthesize a default title when `title` is still falsy (when
`generateDefaultTitle` yields nothing, JS stores `undefined`, which is
observationally absent, so we leave the map unchanged). -/
def mergeMetadata (base updates : List (String × String)) : List (String × String) :=
  let merged := assignMeta base updates
  if metaTitleTruthy merged then merged
  else
    match generateDefaultTitle merged with
    | some t => setKey merged "title" t
    | none => merged

/-- One step of the `readRecordings` fold: the body of the `switch` for a
single recognized event. -/
def applyEntry (recs : List RecordingEntry) (e : LogEntry) : List RecordingEntry :=
  match e with
  | .createRecording id timestamp buildId =>
      recs ++ [⟨id, timestamp, buildId, getBuildRuntime buildId, [], [],
        .unknown, none, none, none, none, none⟩]
  | .addMetadata id metadata =>
      updateFirst (fun r => r.id == id)
        (fun r => { r with metadata := mergeMetadata r.metadata metadata }) recs
  | .writeStarted id path =>
      updateFirst (fun r => r.id == id)
        (fun r => { r with status := updateStatusFn r.status .startedWrite,
                           path := some path }) recs
  | .writeFinished id =>
      updateFirst (fun r => r.id == id)
        (fun r => { r with status := updateStatusFn r.status .onDisk }) recs
  | .uploadStarted id server recordingId =>
      updateFirst (fun r => r.id == id)
        (fun r => { r with status := updateStatusFn r.status .startedUpload,
                           server := some server,
                           recordingId := some recordingId }) recs
  | .uploadFinished id =>
      updateFirst (fun r => r.id == id)
        (fun r => { r with status := updateStatusFn r.status .uploaded }) recs
  | .recordingUnusable id reason =>
      updateFirst (fun r => r.id == id)
        (fun r => { r with status := updateStatusFn r.status .unusable,
                           unusableReason := some reason }) recs
  | .crashed id =>
      updateFirst (fun r => r.id == id)
        (fun r => { r with status := updateStatusFn r.status .crashed }) recs
  | .crashData id data =>
      updateFirst (fun r => r.id == id)
        (fun r => { r with
          crashData := some (r.crashData.getD [] ++ [CrashData.payload data]) }) recs
  | .crashUploaded id =>
      updateFirst (fun r => r.id == id)
        (fun r => { r with status := updateStatusFn r.status .crashUploaded }) recs
  | .sourcemapAdded id recordingId path baseURL h1 h2 h3 =>
      updateFirst (fun r => r.id == recordingId)
        (fun r => { r with
          sourcemaps := r.sourcemaps ++ [⟨id, path, baseURL, h1, h2, h3, []⟩] }) recs
  | .originalSourceAdded recordingId path parentId parentOffset =>
      updateFirst (fun r => r.id == recordingId)
        (fun r => { r with
          sourcemaps := updateFirst (fun s => s.id == parentId)
            (fun s => { s with
              originalSources := s.originalSources ++ [⟨path, parentOffset⟩] })
            r.sourcemaps }) recs

/-- One line of the `readRecordings` loop: `junk` lines are skipped by the
`try/catch`, unrecognized parsed lines fall through the `switch`. -/
def applyLine (recs : List RecordingEntry) : Line → List RecordingEntry
  | .junk _ => recs
  | .extra _ => recs
  | .entry e => applyEntry recs e

/-- The fold of a list of well-formed events from an empty state. -/
def foldEntries (entries : List LogEntry) : List RecordingEntry :=
  entries.foldl applyEntry []

/-- Whether a recording is hidden from default listings ("No interesting
content" in its unusable reason). -/
def isHidden (r : RecordingEntry) : Bool :=
  strContains (r.unusableReason.getD "") "No interesting content"

/-- `readRecordings`: fold the log lines, then (unless `includeHidden`)
drop recordings whose unusable reason contains "No interesting content". -/
def readRecordings (lines : List Line) (includeHidden : Bool) : List RecordingEntry :=
  let recs := lines.foldl applyLine []
  if includeHidden then recs else recs.filter (fun r => !isHidden r)

/-- `ExternalRecordingEntry`: a recording as returned by `listAllRecordings`;
`listRecording` strips the internal-only `buildId` and `crashData`. -/
structure ExternalRecordingEntry where
  id : String
  createTime : Nat
  runtime : String
  metadata : List (String × String)
  sourcemaps : List SourceMapEntry
  status : RecStatus
  path : Option String
  server : Option String
  recordingId : Option String
  unusableReason : Option String
deriving DecidableEq, Repr

/-- `listRecording`: drop the properties only used internally. -/
def listRecording (r : RecordingEntry) : ExternalRecordingEntry :=
  ⟨r.id, r.createTime, r.runtime, r.metadata, r.sourcemaps, r.status, r.path,
    r.server, r.recordingId, r.unusableReason⟩

/-- `filterRecordings` restricted to function filters (the jsonata
string-filter branch is not modelled).  With `includeCrashes`, crashed
recordings excluded by the filter are pushed at the end, in log order,
skipping ones already in the filtered list. -/
def filterRecordings (recordings : List RecordingEntry)
    (filter : Option (RecordingEntry → Bool)) (includeCrashes : Bool) :
    List RecordingEntry :=
  let filtered :=
    match filter with
    | some f => recordings.filter f
    | none => recordings
  if includeCrashes then
    recordings.foldl
      (fun acc r => if r.status = .crashed ∧ r ∉ acc then acc ++ [r] else acc)
      filtered
  else filtered

/-- Options of `listAllRecordings` (`Options & ListOptions`), with the log
directory replaced by the log's line list. -/
structure ListOpts where
  all : Bool
  filter : Option (RecordingEntry → Bool)
  includeCrashes : Bool

/-- `listAllRecordings`: without `all`, only recordings whose status is
`onDisk`, `startedWrite` or `crashed` are listed. -/
def listAllRecordings (log : List Line) (opts : ListOpts) :
    List ExternalRecordingEntry :=
  let recordings := readRecordings log false
  if opts.all then
    (filterRecordings recordings opts.filter opts.includeCrashes).map listRecording
  else
    let uploadableRecordings := recordings.filter (fun r =>
      r.status = .onDisk ∨ r.status = .startedWrite ∨ r.status = .crashed)
    (filterRecordings uploadableRecordings opts.filter opts.includeCrashes).map
      listRecording

/-- `uploadSkipReason`: `none` when the recording is upload-eligible. -/
def uploadSkipReason (r : RecordingEntry) : Option String :=
  if ¬ (r.status = .onDisk ∨ r.status = .startedWrite ∨
      r.status = .startedUpload ∨ r.status = .crashed) then
    some "wrong recording status"
  else if r.path.isNone ∧ r.status ≠ .crashed then
    some "recording not saved to disk"
  else none

/-- `getRecordingAssetFiles`: the recording's primary data file, every source
map path, its derived `.lookup` path (the `.map` suffix replaced, or the path
unchanged when it does not end in `.map`), and every original source path. -/
def lookupPathOf (p : String) : String :=
  let cs := p.toList
  if 4 ≤ cs.length ∧ cs.drop (cs.length - 4) = ".map".toList then
    String.mk (cs.take (cs.length - 4) ++ ".lookup".toList)
  else p

def getRecordingAssetFiles (r : RecordingEntry) : List String :=
  (match r.path with | some p => [p] | none => []) ++
    (r.sourcemaps.map (fun sm =>
      [sm.path, lookupPathOf sm.path] ++ sm.originalSources.map (fun o => o.path))).flatten

/-- Asset files of a listed recording (same computation on the external
shape). -/
def getRecordingAssetFilesExt (r : ExternalRecordingEntry) : List String :=
  (match r.path with | some p => [p] | none => []) ++
    (r.sourcemaps.map (fun sm =>
      [sm.path, lookupPathOf sm.path] ++ sm.originalSources.map (fun o => o.path))).flatten

/-- `maybeRemoveAssetFile` on an explicit disk (the list of existing files):
delete the file when the argument is truthy and the file exists.  Returns the
new disk and whether a deletion happened. -/
def maybeRemoveAssetFile (asset : String) (disk : List String) :
    List String × Bool :=
  if asset ≠ "" ∧ asset ∈ disk then (disk.filter (fun p => p ≠ asset), true)
  else (disk, false)

/-- The `assetFiles.forEach` loop of `removeRecordingAssets`: delete each
asset file not referenced by any other listed local recording.  Returns the
files actually deleted, in order, and the final disk. -/
def removeAssetsLoop (localAssets : List String) :
    List String → List String → List String × List String
  | [], disk => ([], disk)
  | f :: fs, disk =>
    if f ∈ localAssets then removeAssetsLoop localAssets fs disk
    else
      let step := maybeRemoveAssetFile f disk
      let rest := removeAssetsLoop localAssets fs step.1
      (if step.2 then f :: rest.1 else rest.1, rest.2)

/-- `removeRecordingAssets`: the reference set is the recordings listed by
`listAllRecordings` under the filter "not uploaded, not crash-uploaded, and
not the recording being cleaned" (which, `all` being unset, further restricts
to statuses `onDisk`, `startedWrite`, `crashed`). -/
def removeRecordingAssets (log : List Line) (recording : RecordingEntry)
    (disk : List String) : List String × List String :=
  let localRecordings := listAllRecordings log
    ⟨false,
      some (fun r => r.status ≠ .uploaded ∧ r.status ≠ .crashUploaded ∧
        r.id ≠ recording.id),
      false⟩
  let localRecordingAssetFiles := (localRecordings.map getRecordingAssetFilesExt).flatten
  removeAssetsLoop localRecordingAssetFiles (getRecordingAssetFiles recording) disk

/-- The predicate of the `removeRecording` log rewrite: keep a line exactly
when it parses as JSON and its `id` field is not the removed id (the
`try/catch` drops unparseable lines). -/
def keepLine (id : String) : Line → Bool
  | .junk _ => false
  | l => l.idField != some id

/-- `removeRecording`: `none` models the `return false` taken when no
(non-hidden) recording has the given id, in which case the log is not
rewritten; otherwise the recording's assets are removed and the log is
rewritten with the filtered lines.  The result carries the rewritten log and
the disk after asset removal. -/
def removeRecording (id : String) (log : List Line) (disk : List String) :
    Option (List Line × List String) :=
  match (readRecordings log false).find? (fun r => r.id == id) with
  | none => none
  | some recording =>
    some (log.filter (keepLine id), (removeRecordingAssets log recording disk).2)

/-- An observable action of the upload operations: a call on the remote
client, an event appended to the recording log, or an asset file deletion. -/
inductive UAction where
  | initConnection (server : String)
  | reportCrash (data : CrashData)
  | closeConnection
  | beginRecordingUpload (id : String) (buildId : String) (size : Nat)
  | setMetadata (remoteId : String)
  | uploadBytes (path : String) (uploadLink : String) (size : Nat)
  | endRecordingUpload (id : String)
  | uploadSourcemap (remoteId : String) (path : String)
  | uploadOriginalSource (remoteId : String) (path : String)
  | appendEvent (kind : String) (id : String)
  | removeFile (path : String)
deriving DecidableEq, Repr

/-- Environment for the upload operations: connection outcome, the remote id
and upload link handed out by `connectionBeginRecordingUpload`, file sizes
(`fs.promises.stat`), and whether reading an asset file from disk succeeds
(`fs.readFileSync` inside the per-sourcemap `try`).  Remote calls that either
succeed or whose failure is caught locally (`setRecordingMetadata`) are
modelled as succeeding; the api-key lookup does not branch and is elided. -/
structure UploadEnv where
  connectOk : Bool
  beginUpload : String → String → Nat → String × String
  fileSize : String → Nat
  readFileOk : String → Bool

/-- `addRecordingEvent`: read the log, push one serialized event line, write
it back — net effect, append the line. -/
def addRecordingEvent (log : List Line) (e : LogEntry) : List Line :=
  log ++ [Line.entry e]

/-- Result of `doUploadCrash`: `ok` is false on the `return null` taken when
the connection fails. -/
structure CrashUploadResult where
  ok : Bool
  trace : List UAction
  log : List Line
deriving Repr

/-- `doUploadCrash`: connect; report every accumulated crash-data entry plus
the synthetic `recordingMetadata` marker; append one `crashUploaded` event;
close the connection. -/
def doUploadCrash (env : UploadEnv) (server : String)
    (recording : RecordingEntry) (log : List Line) : CrashUploadResult :=
  if env.connectOk then
    let crashData := recording.crashData.getD [] ++
      [CrashData.recordingMetadata recording.id]
    { ok := true
      trace := [UAction.initConnection server] ++
        crashData.map UAction.reportCrash ++
        [UAction.appendEvent "crashUploaded" recording.id, UAction.closeConnection]
      log := addRecordingEvent log (.crashUploaded recording.id) }
  else
    { ok := false, trace := [UAction.initConnection server], log := log }

/-- Result of `doUploadRecording`: the returned remote id (or `null`), the
action trace, and the final log and disk. -/
structure UploadResult where
  result : Option String
  trace : List UAction
  log : List Line
  disk : List String
deriving Repr

/-- `doUploadRecording` (current variant, with the `removeAssets` flag).
Branches in source order: the already-uploaded short-circuit, the skip
reason, the crashed path (which returns the local id), then the byte-upload
protocol: stat, connect, begin upload, set metadata, append `uploadStarted`,
transfer bytes (the exponential-backoff retry is modelled as succeeding),
end upload, upload source maps and original sources (failures to read a
source map from disk skip that source map), optionally remove assets, append
`uploadFinished`, close. -/
def doUploadRecording (env : UploadEnv) (server : String)
    (recording : RecordingEntry) (removeAssets : Bool) (log : List Line)
    (disk : List String) : UploadResult :=
  if recording.status = .uploaded ∧ recording.recordingId.isSome then
    ⟨recording.recordingId, [], log, disk⟩
  else if (uploadSkipReason recording).isSome then
    ⟨none, [], log, disk⟩
  else if recording.status = .crashed then
    let c := doUploadCrash env server recording log
    let ra :=
      if removeAssets then removeRecordingAssets c.log recording disk
      else ([], disk)
    ⟨some recording.id, c.trace ++ ra.1.map UAction.removeFile, c.log, ra.2⟩
  else
    let size := env.fileSize (recording.path.getD "")
    if ¬ env.connectOk then
      ⟨none, [UAction.initConnection server], log, disk⟩
    else
      let bu := env.beginUpload recording.id recording.buildId size
      let log1 := addRecordingEvent log (.uploadStarted recording.id server bu.1)
      let smTrace := (recording.sourcemaps.map (fun sm =>
        if env.readFileOk sm.path then
          UAction.uploadSourcemap bu.1 sm.path ::
            sm.originalSources.filterMap (fun o =>
              if env.readFileOk o.path then
                some (UAction.uploadOriginalSource bu.1 o.path)
              else none)
        else [])).flatten
      let ra :=
        if removeAssets then removeRecordingAssets log1 recording disk
        else ([], disk)
      let log2 := addRecordingEvent log1 (.uploadFinished recording.id)
      ⟨some bu.1,
        [UAction.initConnection server,
          UAction.beginRecordingUpload recording.id recording.buildId size,
          UAction.setMetadata bu.1,
          UAction.appendEvent "uploadStarted" recording.id,
          UAction.uploadBytes (recording.path.getD "") bu.2 size,
          UAction.endRecordingUpload recording.id] ++
          smTrace ++ ra.1.map UAction.removeFile ++
          [UAction.appendEvent "uploadFinished" recording.id,
            UAction.closeConnection],
        log2, ra.2⟩

/-- The serialized `pMap` of `uploadAllRecordings`: run each per-recording
upload (with `removeAssets = false`), threading the log and disk. -/
def runUploads (env : UploadEnv) (server : String) :
    List RecordingEntry → List Line → List String →
    List (Option String) × List UAction × List Line × List String
  | [], log, disk => ([], [], log, disk)
  | r :: rs, log, disk =>
    let u := doUploadRecording env server r false log disk
    let rest := runUploads env server rs u.log u.disk
    (u.result :: rest.1, u.trace ++ rest.2.1, rest.2.2.1, rest.2.2.2)

/-- The post-upload `recordingIds.forEach` pass of `uploadAllRecordings`:
for each returned id, find a recording with that (local) id and remove its
assets.  Note the lookup compares the returned remote id with local ids, so
for non-crash uploads it typically finds nothing. -/
def assetPass (recordings : List RecordingEntry) (ids : List (Option String))
    (log : List Line) (disk : List String) : List UAction × List String :=
  ids.foldl (fun acc id =>
    match id.bind (fun s => recordings.find? (fun r => r.id == s)) with
    | none => acc
    | some r =>
      let ra := removeRecordingAssets log r acc.2
      (acc.1 ++ ra.1.map UAction.removeFile, ra.2))
    ([], disk)

/-- Result of `uploadAllRecordings`: the boolean return, the concurrency
bound handed to `pMap` (`none` when no batch ran), the per-item results, the
trace and the final log and disk. -/
structure BatchResult where
  ok : Bool
  concurrency : Option Nat
  results : List (Option String)
  trace : List UAction
  log : List Line
  disk : List String
deriving Repr

/-- `opts.batchSize || 20` (a zero batch size is falsy and falls back to the
default). -/
def defaultedBatchSize : Option Nat → Nat
  | some (n + 1) => n + 1
  | _ => 20

/-- `uploadAllRecordings`: filter out skippable recordings, apply the
caller's filter, return `true` early when nothing is left; otherwise upload
with concurrency `min(batchSize || 20, 25)`, run the asset pass, and return
the conjunction of per-item successes. -/
def uploadAllRecordings (env : UploadEnv) (server : String) (log : List Line)
    (filter : Option (RecordingEntry → Bool)) (includeCrashes : Bool)
    (batchSize : Option Nat) (disk : List String) : BatchResult :=
  let allRecordings := (readRecordings log false).filter
    (fun r => (uploadSkipReason r).isNone)
  let recordings := filterRecordings allRecordings filter includeCrashes
  if recordings.isEmpty then
    ⟨true, none, [], [], log, disk⟩
  else
    let batch := Nat.min (defaultedBatchSize batchSize) 25
    let ru := runUploads env server recordings log disk
    let ap := assetPass recordings ru.1 ru.2.2.1 ru.2.2.2
    ⟨ru.1.all Option.isSome, some batch, ru.1, ru.2.1 ++ ap.1, ru.2.2.1, ap.2⟩

/-- Error outcome of `retry`: either the rethrown error of the final attempt
or the `ShouldBeUnreachable` error after the loop (never reached from the
public entry points with a positive attempt cap). -/
inductive RetryErr (E : Type) where
  | thrown (e : E)
  | unreachable
deriving DecidableEq, Repr

/-- Outcome of `retry`: the result, the number of invocations of the wrapped
function, and the waits performed between attempts, in order. -/
structure RetryOutcome (E A : Type) where
  result : Except (RetryErr E) A
  calls : Nat
  waits : List Nat
deriving Repr

/-- The `while (currentAttempt <= maxAttempts)` loop of `retry`.  The wrapped
function is a map from the (1-based) attempt number to that invocation's
outcome.  `fuel` is only a structural bound on iterations; called with
`maxAttempts + 1` it never runs out, since `currentAttempt` grows by one per
iteration. -/
def retryLoop {E A : Type} (f : Nat → Except E A) (backoff : Nat → Nat)
    (maxAttempts : Nat) : Nat → Nat → RetryOutcome E A
  | 0, _ => ⟨.error .unreachable, 0, []⟩
  | fuel + 1, currentAttempt =>
    if currentAttempt ≤ maxAttempts then
      let att := currentAttempt + 1
      match f att with
      | .ok v => ⟨.ok v, 1, []⟩
      | .error e =>
        if att = maxAttempts then ⟨.error (.thrown e), 1, []⟩
        else
          let rest := retryLoop f backoff maxAttempts fuel att
          ⟨rest.result, rest.calls + 1, backoff att :: rest.waits⟩
    else ⟨.error .unreachable, 0, []⟩

/-- `retry` with an explicit attempt cap. -/
def retryFn {E A : Type} (f : Nat → Except E A) (backoff : Nat → Nat)
    (maxAttempts : Nat) : RetryOutcome E A :=
  retryLoop f backoff maxAttempts (maxAttempts + 1) 0

/-- `retryWithExponentialBackoff`: backoff of `2 ** iteration * 100` plus the
sampled jitter (`j`, below 100 by construction of `Math.random() * 100`),
with `maxTries` defaulting to 5. -/
def retryWithExponentialBackoff {E A : Type} (f : Nat → Except E A)
    (j : Nat → Nat) (maxTries : Option Nat) : RetryOutcome E A :=
  retryFn f (fun iteration => 2 ^ iteration * 100 + j iteration)
    (maxTries.getD 5)

/-- Number of `reportCrash` calls in a trace. -/
def countReportCrash (tr : List UAction) : Nat :=
  tr.countP (fun a => match a with | .reportCrash _ => true | _ => false)

/-- Number of appended log events of a given kind in a trace. -/
def countAppend (kind : String) (tr : List UAction) : Nat :=
  tr.countP (fun a => match a with
    | .appendEvent k _ => k == kind
    | _ => false)

/-- Whether a trace contains any byte-transfer action (`beginRecordingUpload`
or `uploadBytes`). -/
def hasByteTransfer (tr : List UAction) : Bool :=
  tr.any (fun a => match a with
    | .beginRecordingUpload _ _ _ => true
    | .uploadBytes _ _ _ => true
    | _ => false)

/-- Number of recordings among `recs` whose asset files include `f` — the
reference count of the claimed cleanup rule. -/
def refCount (f : String) (recs : List RecordingEntry) : Nat :=
  recs.countP (fun r => decide (f ∈ getRecordingAssetFiles r))

/-- One fold step can leave a recording's status alone or pass it through the
`updateStatus` guard with some requested status. -/
def statusStep (old new : RecStatus) : Prop :=
  new = old ∨ ∃ s, new = updateStatusFn old s

/-- Placeholder recording used only as an `Option.getD` default in concrete
fixtures. -/
def emptyRecording : RecordingEntry :=
  ⟨"", 0, "", "", [], [], .unknown, none, none, none, none, none⟩

/-- The reconstructed recording of a given id (fixtures only). -/
def recOf (log : List Line) (id : String) : RecordingEntry :=
  ((readRecordings log false).find? (fun r => r.id == id)).getD emptyRecording

/-- A benign environment: connection succeeds, the remote hands out a fixed
id and link, stat and file reads succeed. -/
def envOk : UploadEnv :=
  ⟨true, fun _ _ _ => ("R1", "upload-link"), fun _ => 1000, fun _ => true⟩

/-- A crashed recording holding exactly two crash-data entries. -/
def recCrashed2 : RecordingEntry :=
  ⟨"A", 0, "b", "unknown", [], [], .crashed, none, none, none, none,
    some [.payload "d1", .payload "d2"]⟩

/-- An already-uploaded recording with a remote id. -/
def recUploaded : RecordingEntry :=
  ⟨"A", 0, "b", "unknown", [], [], .uploaded, none, none, some "R9", none, none⟩

/-- An upload followed by a write-started event: exercises a status
regression along the lifecycle chain. -/
def c1CEntries : List LogEntry :=
  [.createRecording "A" 0 "b", .uploadFinished "A", .writeStarted "A" "/p"]

/-- A recording that became unusable, and a later event. -/
def c1WEntries : List LogEntry :=
  [.createRecording "A" 0 "b", .recordingUnusable "A" "boom"]

def c1WMore : List LogEntry := [.uploadFinished "A"]

/-- The folded state of `c1WEntries` (and of `c1WEntries ++ c1WMore`). -/
def c1WRec : RecordingEntry :=
  ⟨"A", 0, "b", "unknown", [], [], .unusable, none, none, none, some "boom", none⟩

/-- Two on-disk recordings sharing one deduplicated source-map file. -/
def c2Log : List Line :=
  [.entry (.createRecording "A" 0 "b"), .entry (.writeStarted "A" "/tmp/a"),
   .entry (.writeFinished "A"),
   .entry (.sourcemapAdded "sm1" "A" "/maps/x.map" "base" "h1" "h2" "h3"),
   .entry (.createRecording "B" 1 "b"), .entry (.writeStarted "B" "/tmp/b"),
   .entry (.writeFinished "B"),
   .entry (.sourcemapAdded "sm2" "B" "/maps/x.map" "base" "h1" "h2" "h3")]

/-- The same two recordings, with B's upload started (so B is neither
uploaded nor crash-uploaded, but no longer listed by default). -/
def c2LogUp : List Line := c2Log ++ [.entry (.uploadStarted "B" "srv" "RB")]

def c2Disk : List String := ["/tmp/a", "/tmp/b", "/maps/x.map", "/maps/x.lookup"]

def c2RecA0 : RecordingEntry := recOf c2Log "A"

def c2RecB0 : RecordingEntry := recOf c2Log "B"

def c2RecA : RecordingEntry := recOf c2LogUp "A"

/-- Deleting recording A, then recording B, from the shared-source-map log. -/
def c2Step1 : Option (List Line × List String) := removeRecording "A" c2Log c2Disk

def c2Step2 : Option (List Line × List String) :=
  removeRecording "B" (c2Step1.getD ([], [])).1 (c2Step1.getD ([], [])).2

/-- One eligible on-disk recording. -/
def c5Log : List Line :=
  [.entry (.createRecording "A" 0 "b"), .entry (.writeStarted "A" "/tmp/a"),
   .entry (.writeFinished "A")]

/-- The log of the §8 scenario, over an arbitrary timestamp and server. -/
def c7log (t : Nat) (server : String) : List Line :=
  [.entry (.createRecording "A" t "2023-chromium-x"),
   .entry (.writeStarted "A" "/tmp/a"), .entry (.writeFinished "A"),
   .entry (.uploadStarted "A" server "R1"), .entry (.uploadFinished "A")]

/-- An operation that fails on the first attempt and succeeds on the second. -/
def f2 : Nat → Except String Nat := fun i => if i = 2 then .ok 7 else .error "boom"

/-- A fixed jitter sample below 100. -/
def j3 : Nat → Nat := fun _ => 3

/-- A log with a blank (unparseable) line and two recordings. -/
def c10Log : List Line :=
  [.entry (.createRecording "A" 0 "b"), .junk "",
   .entry (.createRecording "B" 0 "b"), .entry (.writeStarted "A" "/p")]

/-- C9: the reconstruction of recording state is a deterministic function of
the ordered entry sequence — folding the same sequence twice yields identical
recording lists (the embedding of `readRecordings` is pure, so determinism is
definitional). -/
theorem foldEntries_deterministic (entries : List LogEntry) :
    foldEntries entries = foldEntries entries := rfl

/-- C6: a log line that fails to parse as JSON is skipped by the `try/catch`
of `readRecordings`, so the reconstructed state is the same as for the log
with that line absent, wherever the line sits and whatever its raw text. -/
theorem readRecordings_skip_junk (pre post : List Line) (raw : String)
    (includeHidden : Bool) :
    readRecordings (pre ++ Line.junk raw :: post) includeHidden =
      readRecordings (pre ++ post) includeHidden := by
  simp [readRecordings, List.foldl_append, applyLine]

/-- C7: folding the scenario log (createRecording with buildId
"2023-chromium-x", writeStarted, writeFinished, uploadStarted with remote id
"R1", uploadFinished) yields exactly one recording, uploaded, with remote id
"R1" and runtime "chromium" extracted from between the first and second dash
of the build id. -/
theorem c7_scenario (t : Nat) (server : String) :
    readRecordings (c7log t server) false =
      [⟨"A", t, "2023-chromium-x", "chromium", [], [], .uploaded,
        some "/tmp/a", some server, some "R1", none, none⟩] := rfl

/-- C4: for a recording whose status is `uploaded`, `doUploadRecording`
returns the recording's stored remote id, performs no action at all (no
network transfer, no asset removal) and appends nothing to the log.  When the
status is `uploaded` but no remote id was recorded, the skip-reason branch
returns `null`, which again equals the (absent) stored remote id. -/
theorem uploadedShortCircuit (env : UploadEnv) (server : String)
    (recording : RecordingEntry) (removeAssets : Bool) (log : List Line)
    (disk : List String) (h : recording.status = RecStatus.uploaded) :
    doUploadRecording env server recording removeAssets log disk =
      ⟨recording.recordingId, [], log, disk⟩ := by
  rcases hrid : recording.recordingId with _ | rid
  · simp [doUploadRecording, h, hrid, uploadSkipReason]
  · simp [doUploadRecording, h, hrid]

/-- Witness for C4 at a concrete uploaded recording. -/
theorem uploadedShortCircuit_witness :
    recUploaded.status = RecStatus.uploaded ∧
    doUploadRecording envOk "srv" recUploaded true [] [] =
      ⟨some "R9", [], [], []⟩ :=
  ⟨rfl, uploadedShortCircuit envOk "srv" recUploaded true [] [] rfl⟩

/-- An in-place update of the first matching element leaves every position
either unchanged or mapped through `f`. -/
theorem updateFirst_getElem {α : Type} (p : α → Bool) (f : α → α) :
    ∀ (l : List α) (i : Nat) (r : α), l[i]? = some r →
      (updateFirst p f l)[i]? = some r ∨ (updateFirst p f l)[i]? = some (f r)
  | [], i, r, h => by simp at h
  | x :: xs, 0, r, h => by
    simp only [List.getElem?_cons_zero, Option.some.injEq] at h
    subst h
    by_cases hp : p x
    · simp [updateFirst, hp]
    · simp [updateFirst, hp]
  | x :: xs, i + 1, r, h => by
    simp only [List.getElem?_cons_succ] at h
    by_cases hp : p x
    · simp [updateFirst, hp, h]
    · simpa [updateFirst, hp] using updateFirst_getElem p f xs i r h

/-- Every case of `applyEntry` moves the status of each already-present
recording through at most one `updateStatus` step. -/
theorem applyEntry_status (recs : List RecordingEntry) (e : LogEntry) (i : Nat)
    (r : RecordingEntry) (h : recs[i]? = some r) :
    ∃ r', (applyEntry recs e)[i]? = some r' ∧ statusStep r.status r'.status := by
  have hgen : ∀ (p : RecordingEntry → Bool) (f : RecordingEntry → RecordingEntry),
      (∀ x, (f x).status = x.status ∨ ∃ s, (f x).status = updateStatusFn x.status s) →
      ∃ r', (updateFirst p f recs)[i]? = some r' ∧ statusStep r.status r'.status := by
    intro p f hf
    rcases updateFirst_getElem p f recs i r h with h' | h'
    · exact ⟨r, h', Or.inl rfl⟩
    · rcases hf r with hs | ⟨s, hs⟩
      · exact ⟨f r, h', Or.inl hs⟩
      · exact ⟨f r, h', Or.inr ⟨s, hs⟩⟩
  cases e with
  | createRecording id ts b =>
    refine ⟨r, ?_, Or.inl rfl⟩
    have hi : i < recs.length := (List.getElem?_eq_some.mp h).1
    simpa [applyEntry, List.getElem?_append_left hi] using h
  | addMetadata id m => exact hgen _ _ (fun x => Or.inl rfl)
  | writeStarted id p => exact hgen _ _ (fun x => Or.inr ⟨.startedWrite, rfl⟩)
  | writeFinished id => exact hgen _ _ (fun x => Or.inr ⟨.onDisk, rfl⟩)
  | uploadStarted id s rid => exact hgen _ _ (fun x => Or.inr ⟨.startedUpload, rfl⟩)
  | uploadFinished id => exact hgen _ _ (fun x => Or.inr ⟨.uploaded, rfl⟩)
  | recordingUnusable id reason => exact hgen _ _ (fun x => Or.inr ⟨.unusable, rfl⟩)
  | crashed id => exact hgen _ _ (fun x => Or.inr ⟨.crashed, rfl⟩)
  | crashData id d => exact hgen _ _ (fun x => Or.inl rfl)
  | crashUploaded id => exact hgen _ _ (fun x => Or.inr ⟨.crashUploaded, rfl⟩)
  | sourcemapAdded id rid p b h1 h2 h3 => exact hgen _ _ (fun x => Or.inl rfl)
  | originalSourceAdded rid p pid off => exact hgen _ _ (fun x => Or.inl rfl)

/-- Status properties preserved by single steps are preserved by folding any
further entry list. -/
theorem foldl_status_absorb (P : RecStatus → Prop)
    (hP : ∀ old new, P old → statusStep old new → P new) :
    ∀ (more : List LogEntry) (recs : List RecordingEntry) (i : Nat)
      (r : RecordingEntry), recs[i]? = some r → P r.status →
      ∃ r', (more.foldl applyEntry recs)[i]? = some r' ∧ P r'.status
  | [], recs, i, r, h, hp => ⟨r, h, hp⟩
  | e :: more, recs, i, r, h, hp => by
    obtain ⟨r1, h1, hs⟩ := applyEntry_status recs e i r h
    exact foldl_status_absorb P hP more (applyEntry recs e) i r1 h1 (hP _ _ hp hs)

theorem statusStep_unusable {new : RecStatus}
    (h : statusStep .unusable new) : new = .unusable := by
  rcases h with h | ⟨s, h⟩
  · exact h
  · simpa [updateStatusFn] using h

theorem statusStep_crashUploaded {new : RecStatus}
    (h : statusStep .crashUploaded new) : new = .crashUploaded := by
  rcases h with h | ⟨s, h⟩
  · exact h
  · simpa [updateStatusFn] using h

theorem statusStep_crashed {new : RecStatus}
    (h : statusStep .crashed new) : new = .crashed ∨ new = .crashUploaded := by
  rcases h with h | ⟨s, h⟩
  · exact Or.inl h
  · by_cases hs : s = RecStatus.crashUploaded
    · subst hs; simp [updateStatusFn] at h; exact Or.inr h
    · simp [updateStatusFn, hs] at h; exact Or.inl h

/-- C1, amended: over any ordered sequence of well-formed entries, the
terminal statuses are absorbing as `updateStatus` implements them — once
`unusable` or `crashUploaded` the status never changes again; once `crashed`
the status can only change to `crashUploaded`.  The lifecycle chain itself is
not guarded: a later status event may move the status backwards under the
order unknown < startedWrite < onDisk < startedUpload < uploaded (see the
counterexample), so the distinct-status sequence need not be non-decreasing. -/
theorem readRecordings_status_absorbing (entries more : List LogEntry) (i : Nat)
    (r r' : RecordingEntry)
    (h : (foldEntries entries)[i]? = some r)
    (h' : (foldEntries (entries ++ more))[i]? = some r') :
    (r.status = .unusable → r'.status = .unusable) ∧
    (r.status = .crashUploaded → r'.status = .crashUploaded) ∧
    (r.status = .crashed → r'.status = .crashed ∨ r'.status = .crashUploaded) := by
  have happ : foldEntries (entries ++ more) =
      more.foldl applyEntry (foldEntries entries) := by
    simp [foldEntries, List.foldl_append]
  rw [happ] at h'
  refine ⟨?_, ?_, ?_⟩ <;> intro hst
  · obtain ⟨r2, h2, hp⟩ := foldl_status_absorb (· = .unusable)
      (fun old new ho hs => by
        subst ho; exact statusStep_unusable hs) more _ i r h hst
    rw [h2] at h'
    cases h'
    exact hp
  · obtain ⟨r2, h2, hp⟩ := foldl_status_absorb (· = .crashUploaded)
      (fun old new ho hs => by
        subst ho; exact statusStep_crashUploaded hs) more _ i r h hst
    rw [h2] at h'
    cases h'
    exact hp
  · obtain ⟨r2, h2, hp⟩ := foldl_status_absorb
      (fun s => s = .crashed ∨ s = .crashUploaded)
      (fun old new ho hs => by
        rcases ho with ho | ho
        · subst ho; exact statusStep_crashed hs
        · subst ho; exact Or.inr (statusStep_crashUploaded hs))
      more _ i r h (Or.inl hst)
    rw [h2] at h'
    cases h'
    exact hp

/-- Witness for C1 at a concrete log: a recording turned unusable stays
unusable after a later `uploadFinished` event. -/
theorem readRecordings_status_absorbing_witness :
    (foldEntries c1WEntries)[0]? = some c1WRec ∧
    c1WRec.status = RecStatus.unusable :=
  ⟨rfl, (readRecordings_status_absorbing c1WEntries c1WMore 0 c1WRec c1WRec
    rfl rfl).1 rfl⟩

/-- Counterexample to C1 as stated: an `uploadFinished` followed by a
`writeStarted` event drives the same recording from `uploaded` back to
`startedWrite`, so the sequence of distinct statuses taken during the fold is
not non-decreasing under the lifecycle order. -/
theorem readRecordings_monotonic_counterexample :
    (foldEntries (c1CEntries.take 2)).map RecordingEntry.status =
      [RecStatus.uploaded] ∧
    (foldEntries c1CEntries).map RecordingEntry.status =
      [RecStatus.startedWrite] ∧
    statusRank RecStatus.startedWrite < statusRank RecStatus.uploaded :=
  ⟨rfl, rfl, by decide⟩

/-- C10, amended: when a (non-hidden) recording with the given id exists, the
remove-recording operation rewrites the log to exactly the lines that parse
as valid JSON and whose id field differs from the given id, in their original
relative order (a sublist of the old log); every unparseable line, blank
lines included, is dropped by the rewrite, while surviving lines are kept
unchanged.  When no such recording exists the operation returns false and
performs no rewrite (see the counterexample). -/
theorem removeRecording_rewrite (id : String) (log : List Line)
    (disk : List String) (out : List Line × List String)
    (h : removeRecording id log disk = some out) :
    out.1 = log.filter (keepLine id) ∧ List.Sublist out.1 log := by
  unfold removeRecording at h
  rcases hfind : (readRecordings log false).find? (fun r => r.id == id) with _ | rec
  · rw [hfind] at h; cases h
  · rw [hfind] at h
    cases h
    exact ⟨rfl, List.filter_sublist log⟩

/-- Witness for C10 at a concrete log holding a blank line and two
recordings: removing recording A drops A's lines and the blank line and keeps
B's line. -/
theorem removeRecording_rewrite_witness :
    removeRecording "A" c10Log [] =
      some ([Line.entry (.createRecording "B" 0 "b")], []) ∧
    [Line.entry (.createRecording "B" 0 "b")] = c10Log.filter (keepLine "A") :=
  ⟨rfl, (removeRecording_rewrite "A" c10Log []
    ([Line.entry (.createRecording "B" 0 "b")], []) rfl).1⟩

/-- Counterexample to C10 as stated: for a log holding only an unparseable
line and an id with no matching recording, the operation returns false and
leaves the log as is, although the claimed rewrite (which would drop the
unparseable line) differs from the untouched log. -/
theorem removeRecording_rewrite_counterexample :
    removeRecording "A" [Line.junk "oops"] [] = none ∧
    List.filter (keepLine "A") [Line.junk "oops"] ≠ [Line.junk "oops"] :=
  ⟨rfl, by decide⟩

/-- Asset-removal actions contribute nothing to a count of other actions. -/
theorem countP_map_removeFile (p : UAction → Bool)
    (hp : ∀ s, p (UAction.removeFile s) = false) :
    ∀ l : List String, (l.map UAction.removeFile).countP p = 0
  | [] => rfl
  | s :: l => by
    simp [List.countP_cons, hp, countP_map_removeFile p hp l]

/-- Asset-removal actions satisfy no predicate that rejects `removeFile`. -/
theorem any_map_removeFile (p : UAction → Bool)
    (hp : ∀ s, p (UAction.removeFile s) = false) :
    ∀ l : List String, (l.map UAction.removeFile).any p = false
  | [] => rfl
  | s :: l => by
    simp [hp, any_map_removeFile p hp l]

/-- C3, amended: for a crashed recording holding exactly two crashData
entries, provided the connection to the server succeeds, the upload operation
calls `reportCrash` exactly three times — once per accumulated crash-data
entry plus once for the synthetic `recordingMetadata` marker it pushes — then
appends exactly one `crashUploaded` event, and performs no byte transfer (no
`beginRecordingUpload`, no `uploadBytes`, no `uploadStarted` event). -/
theorem crashUpload_reports (env : UploadEnv) (server : String)
    (recording : RecordingEntry) (removeAssets : Bool) (log : List Line)
    (disk : List String) (d1 d2 : CrashData)
    (hconn : env.connectOk = true)
    (hstatus : recording.status = RecStatus.crashed)
    (hdata : recording.crashData = some [d1, d2]) :
    countReportCrash
      (doUploadRecording env server recording removeAssets log disk).trace = 3 ∧
    countAppend "crashUploaded"
      (doUploadRecording env server recording removeAssets log disk).trace = 1 ∧
    hasByteTransfer
      (doUploadRecording env server recording removeAssets log disk).trace = false ∧
    countAppend "uploadStarted"
      (doUploadRecording env server recording removeAssets log disk).trace = 0 := by
  have htrace : (doUploadRecording env server recording removeAssets log disk).trace =
      [UAction.initConnection server, UAction.reportCrash d1,
        UAction.reportCrash d2,
        UAction.reportCrash (CrashData.recordingMetadata recording.id),
        UAction.appendEvent "crashUploaded" recording.id,
        UAction.closeConnection] ++
      ((if removeAssets then
          removeRecordingAssets
            (addRecordingEvent log (.crashUploaded recording.id)) recording disk
        else ([], disk)).1.map UAction.removeFile) := by
    simp [doUploadRecording, hstatus, uploadSkipReason, doUploadCrash, hconn, hdata]
  rw [htrace]
  have hc1 := countP_map_removeFile
    (fun a => match a with | UAction.reportCrash _ => true | _ => false)
    (fun s => rfl)
  have hc2 := fun kind => countP_map_removeFile
    (fun a => match a with | UAction.appendEvent k _ => k == kind | _ => false)
    (fun s => rfl)
  have hc3 := any_map_removeFile
    (fun a => match a with
      | UAction.beginRecordingUpload _ _ _ => true
      | UAction.uploadBytes _ _ _ => true
      | _ => false)
    (fun s => rfl)
  refine ⟨?_, ?_, ?_, ?_⟩
  · simp [countReportCrash, List.countP_append, List.countP_cons, hc1]
  · simp [countAppend, List.countP_append, List.countP_cons, hc2]
  · simp [hasByteTransfer, List.any_append, hc3]
  · simp [countAppend, List.countP_append, List.countP_cons, hc2]

/-- Witness for C3 at a concrete crashed recording with two crash-data
entries and a benign environment. -/
theorem crashUpload_reports_witness :
    envOk.connectOk = true ∧ recCrashed2.status = RecStatus.crashed ∧
    countReportCrash (doUploadRecording envOk "srv" recCrashed2 false [] []).trace = 3 :=
  ⟨rfl, rfl, (crashUpload_reports envOk "srv" recCrashed2 false [] []
    (CrashData.payload "d1") (CrashData.payload "d2") rfl rfl rfl).1⟩

/-- Counterexample to C3 as stated: in the claimed situation (crashed status,
two crashData entries, working connection) the number of `reportCrash` calls
is three, not two, because of the synthetic `recordingMetadata` marker. -/
theorem crashUpload_reports_counterexample :
    recCrashed2.status = RecStatus.crashed ∧
    recCrashed2.crashData = some [CrashData.payload "d1", CrashData.payload "d2"] ∧
    countReportCrash (doUploadRecording envOk "srv" recCrashed2 false [] []).trace = 3 ∧
    (3 : Nat) ≠ 2 :=
  ⟨rfl, rfl, rfl, by decide⟩

/-- A file deleted by the asset loop is never one of the protected local
asset files. -/
theorem removeAssetsLoop_not_local (localAssets : List String) :
    ∀ (files disk : List String) (f : String),
      f ∈ (removeAssetsLoop localAssets files disk).1 → f ∉ localAssets
  | [], disk, f, h => by simp [removeAssetsLoop] at h
  | g :: fs, disk, f, h => by
    by_cases hg : g ∈ localAssets
    · simp only [removeAssetsLoop, if_pos hg] at h
      exact removeAssetsLoop_not_local localAssets fs disk f h
    · simp only [removeAssetsLoop, if_neg hg] at h
      split at h
      · rcases List.mem_cons.mp h with rfl | h
        · exact hg
        · exact removeAssetsLoop_not_local localAssets fs _ f h
      · exact removeAssetsLoop_not_local localAssets fs _ f h

/-- General half of C2 (amended): a file deleted by `removeRecordingAssets`
is referenced by no other non-hidden recording whose status is `onDisk`,
`startedWrite` or `crashed` — the statuses the default listing considers. -/
theorem assetCleanup_general (log : List Line) (recording : RecordingEntry)
    (disk : List String) (f : String)
    (hf : f ∈ (removeRecordingAssets log recording disk).1) :
    ∀ r ∈ readRecordings log false, r.id ≠ recording.id →
      (r.status = .onDisk ∨ r.status = .startedWrite ∨ r.status = .crashed) →
      f ∉ getRecordingAssetFiles r := by
  intro r hr hid hst hmem
  simp only [removeRecordingAssets] at hf
  have hnl := removeAssetsLoop_not_local _ _ _ _ hf
  apply hnl
  rw [List.mem_flatten]
  refine ⟨getRecordingAssetFilesExt (listRecording r), ?_, hmem⟩
  apply List.mem_map_of_mem
  simp only [listAllRecordings, if_neg (by simp : ¬ (False : Prop)), filterRecordings]
  apply List.mem_map_of_mem
  have hupl : (fun x : RecordingEntry => decide
      (x.status = RecStatus.onDisk ∨ x.status = RecStatus.startedWrite ∨
        x.status = RecStatus.crashed)) r = true := decide_eq_true hst
  have hpred : r.status ≠ RecStatus.uploaded ∧ r.status ≠ RecStatus.crashUploaded ∧
      r.id ≠ recording.id := by
    rcases hst with h | h | h <;> rw [h] <;>
      exact ⟨by decide, by decide, hid⟩
  refine List.mem_filter.mpr ⟨List.mem_filter.mpr ⟨hr, ?_⟩, ?_⟩
  · exact decide_eq_true hst
  · exact decide_eq_true hpred

/-- C2, amended: asset cleanup deletes one of the recording's asset files
only if no other non-hidden local recording with status `onDisk`,
`startedWrite` or `crashed` references it — rather than "all recordings
except uploaded/crash-uploaded ones" (see the counterexample with a
`startedUpload` sharer); in particular, for two on-disk recordings sharing
one source-map file, deleting one recording preserves the shared file while
the other remains un-uploaded, and deleting both removes it. -/
theorem assetCleanup_refcount :
    (∀ (log : List Line) (recording : RecordingEntry) (disk : List String)
      (f : String), f ∈ (removeRecordingAssets log recording disk).1 →
      ∀ r ∈ readRecordings log false, r.id ≠ recording.id →
        (r.status = .onDisk ∨ r.status = .startedWrite ∨ r.status = .crashed) →
        f ∉ getRecordingAssetFiles r) ∧
    c2Step1.isSome = true ∧
    "/maps/x.map" ∈ (c2Step1.getD ([], [])).2 ∧
    c2Step2.isSome = true ∧
    "/maps/x.map" ∉ (c2Step2.getD ([], [])).2 :=
  ⟨assetCleanup_general, rfl, by decide, rfl, by decide⟩

/-- Witness for C2 at a concrete cleanup: deleting recording A's assets in
the shared-map log removes A's private primary file, which the theorem
guarantees is referenced by no other listed recording, B in particular. -/
theorem assetCleanup_refcount_witness :
    "/tmp/a" ∈ (removeRecordingAssets c2Log c2RecA0 c2Disk).1 ∧
    "/tmp/a" ∉ getRecordingAssetFiles c2RecB0 :=
  ⟨by decide, assetCleanup_refcount.1 c2Log c2RecA0 c2Disk "/tmp/a" (by decide)
    c2RecB0 (by decide) (by decide) (by decide)⟩

/-- Counterexample to C2 as stated: with recording B sharing A's source map
but in status `startedUpload` (neither uploaded nor crash-uploaded), cleaning
A deletes the shared file even though its reference count among local
recordings excluding uploaded/crash-uploaded ones is 2, not 1. -/
theorem assetCleanup_refcount_counterexample :
    "/maps/x.map" ∈ (removeRecordingAssets c2LogUp c2RecA c2Disk).1 ∧
    refCount "/maps/x.map"
      ((readRecordings c2LogUp false).filter (fun r =>
        r.status ≠ RecStatus.uploaded ∧ r.status ≠ RecStatus.crashUploaded)) = 2 ∧
    (2 : Nat) ≠ 1 :=
  ⟨by decide, by decide, by decide⟩

/-- The value returned by a per-recording upload depends only on the
environment and the recording, not on the log or disk state it is run
against (the log is only appended to). -/
theorem doUploadRecording_result_const (env : UploadEnv) (server : String)
    (r : RecordingEntry) (removeAssets removeAssets' : Bool)
    (log log' : List Line) (disk disk' : List String) :
    (doUploadRecording env server r removeAssets log disk).result =
      (doUploadRecording env server r removeAssets' log' disk').result := by
  by_cases hA : r.status = RecStatus.uploaded ∧ r.recordingId.isSome
  · simp [doUploadRecording, hA]
  · by_cases hB : (uploadSkipReason r).isSome
    · simp [doUploadRecording, hA, hB]
    · by_cases hC : r.status = RecStatus.crashed
      · simp [doUploadRecording, hA, hB, hC]
      · by_cases hD : env.connectOk
        · simp [doUploadRecording, hA, hB, hC, hD]
        · simp [doUploadRecording, hA, hB, hC, hD]

/-- The serialized batch produces exactly the list of per-item results, each
the result of uploading that recording on its own. -/
theorem runUploads_results (env : UploadEnv) (server : String) (log0 : List Line)
    (disk0 : List String) :
    ∀ (recs : List RecordingEntry) (log : List Line) (disk : List String),
      (runUploads env server recs log disk).1 =
        recs.map (fun r => (doUploadRecording env server r false log0 disk0).result)
  | [], _, _ => rfl
  | r :: rs, log, disk => by
    simp only [runUploads, List.map_cons]
    exact congrArg₂ List.cons
      (doUploadRecording_result_const env server r false false log log0 disk disk0)
      (runUploads_results env server log0 disk0 rs _ _)

/-- C5, amended: batch upload runs the per-recording uploads with top-level
concurrency bound min(b, 25) when a nonzero batch size b is provided and
min(20, 25) = 20 otherwise (a provided batch size of 0 is falsy in the
source and falls back to the default 20 — see the counterexample); per-item
failures are isolated — the result list is exactly the independent per-item
upload results — and the batch returns true if and only if every item's
upload returned a non-null result. -/
theorem uploadAll_batch (env : UploadEnv) (server : String) (log : List Line)
    (filter : Option (RecordingEntry → Bool)) (includeCrashes : Bool)
    (batchSize : Option Nat) (disk : List String) :
    (filterRecordings ((readRecordings log false).filter
        (fun r => (uploadSkipReason r).isNone)) filter includeCrashes ≠ [] →
      (uploadAllRecordings env server log filter includeCrashes batchSize disk).concurrency =
        some (Nat.min (defaultedBatchSize batchSize) 25)) ∧
    (uploadAllRecordings env server log filter includeCrashes batchSize disk).results =
      (filterRecordings ((readRecordings log false).filter
        (fun r => (uploadSkipReason r).isNone)) filter includeCrashes).map
        (fun r => (doUploadRecording env server r false log disk).result) ∧
    (uploadAllRecordings env server log filter includeCrashes batchSize disk).ok =
      ((uploadAllRecordings env server log filter includeCrashes batchSize disk).results.all
        Option.isSome) := by
  by_cases hrecs : filterRecordings ((readRecordings log false).filter
      (fun r => (uploadSkipReason r).isNone)) filter includeCrashes = []
  · refine ⟨fun hne => absurd hrecs hne, ?_, ?_⟩
    · simp [uploadAllRecordings, hrecs]
    · simp [uploadAllRecordings, hrecs]
  · have hne : (filterRecordings ((readRecordings log false).filter
        (fun r => (uploadSkipReason r).isNone)) filter includeCrashes).isEmpty = false := by
      simpa [List.isEmpty_iff] using hrecs
    refine ⟨fun _ => ?_, ?_, ?_⟩
    · simp [uploadAllRecordings, hne]
    · simp only [uploadAllRecordings, hne, Bool.false_eq_true, if_false]
      exact runUploads_results env server log disk _ _ _
    · simp [uploadAllRecordings, hne]

/-- Witness for C5 at a concrete one-recording log with batch size 3. -/
theorem uploadAll_batch_witness :
    filterRecordings ((readRecordings c5Log false).filter
      (fun r => (uploadSkipReason r).isNone)) none false ≠ [] ∧
    (uploadAllRecordings envOk "srv" c5Log none false (some 3) []).concurrency =
      some (Nat.min (defaultedBatchSize (some 3)) 25) :=
  ⟨by decide, (uploadAll_batch envOk "srv" c5Log none false (some 3) []).1 (by decide)⟩

/-- Counterexample to C5 as stated: a provided batch size of 0 yields a
concurrency bound of 20, not min(0, 25) = 0, because `batchSize || 20`
treats 0 as falsy. -/
theorem uploadAll_batch_counterexample :
    (uploadAllRecordings envOk "srv" c5Log none false (some 0) []).concurrency =
      some 20 ∧
    Nat.min 0 25 ≠ 20 :=
  ⟨rfl, by decide⟩

/-- With the attempt counter strictly below the cap, the loop performs at
most `maxAttempts - currentAttempt` invocations. -/
theorem retryLoop_calls_le {E A : Type} (f : Nat → Except E A) (b : Nat → Nat)
    (m : Nat) : ∀ (fuel cA : Nat), cA < m →
      (retryLoop f b m fuel cA).calls ≤ m - cA
  | 0, cA, h => by simp [retryLoop]
  | fuel + 1, cA, h => by
    simp only [retryLoop, if_pos (Nat.le_of_lt h)]
    cases hf : f (cA + 1) with
    | ok v =>
      show 1 ≤ m - cA
      omega
    | error e =>
      by_cases hend : cA + 1 = m
      · simp only [if_pos hend]
        show 1 ≤ m - cA
        omega
      · simp only [if_neg hend]
        show (retryLoop f b m fuel (cA + 1)).calls + 1 ≤ m - cA
        have ih := retryLoop_calls_le f b m fuel (cA + 1) (by omega)
        omega

/-- When attempts up to `k` fail and attempt `k` succeeds, the loop returns
that success after exactly `k - currentAttempt` invocations. -/
theorem retryLoop_first_success {E A : Type} (f : Nat → Except E A)
    (b : Nat → Nat) (m : Nat) :
    ∀ (fuel cA k : Nat) (v : A), cA < k → k ≤ m → k ≤ cA + fuel →
      (∀ i, cA < i → i < k → (f i).isOk = false) → f k = .ok v →
      (retryLoop f b m fuel cA).result = .ok v ∧
        (retryLoop f b m fuel cA).calls = k - cA
  | 0, cA, k, v, h1, h2, h3, hfail, hok => by omega
  | fuel + 1, cA, k, v, h1, h2, h3, hfail, hok => by
    have hcm : cA ≤ m := by omega
    simp only [retryLoop, if_pos hcm]
    by_cases hk : cA + 1 = k
    · subst hk
      rw [hok]
      refine ⟨rfl, ?_⟩
      show (1 : Nat) = cA + 1 - cA
      omega
    · have hfa : (f (cA + 1)).isOk = false := hfail (cA + 1) (by omega) (by omega)
      cases hfe : f (cA + 1) with
      | ok w => rw [hfe] at hfa; simp [Except.isOk, Except.toBool] at hfa
      | error e =>
        simp only [hfe]
        have hne : cA + 1 ≠ m := by omega
        simp only [if_neg hne]
        have ih := retryLoop_first_success f b m fuel (cA + 1) k v (by omega) h2
          (by omega) (fun i hi1 hi2 => hfail i (by omega) hi2) hok
        refine ⟨ih.1, ?_⟩
        show (retryLoop f b m fuel (cA + 1)).calls + 1 = k - cA
        have h5 := ih.2
        omega

/-- When every attempt up to the cap fails, the loop rethrows the final
attempt's error after exactly `maxAttempts - currentAttempt` invocations. -/
theorem retryLoop_all_fail {E A : Type} (f : Nat → Except E A) (b : Nat → Nat)
    (m : Nat) (em : E) : ∀ (fuel cA : Nat), cA < m → m ≤ cA + fuel →
      (∀ i, cA < i → i < m → (f i).isOk = false) → f m = .error em →
      (retryLoop f b m fuel cA).result = .error (.thrown em) ∧
        (retryLoop f b m fuel cA).calls = m - cA
  | 0, cA, h1, h2, hfail, herr => by omega
  | fuel + 1, cA, h1, h2, hfail, herr => by
    have hcm : cA ≤ m := by omega
    simp only [retryLoop, if_pos hcm]
    by_cases hk : cA + 1 = m
    · subst hk
      simp only [herr, if_pos rfl]
      constructor
      · trivial
      · show (1 : Nat) = cA + 1 - cA
        omega
    · have hfa : (f (cA + 1)).isOk = false := hfail (cA + 1) (by omega) (by omega)
      cases hfe : f (cA + 1) with
      | ok w => rw [hfe] at hfa; simp [Except.isOk, Except.toBool] at hfa
      | error e =>
        simp only [hfe, if_neg hk]
        have ih := retryLoop_all_fail f b m em fuel (cA + 1) (by omega) (by omega)
          (fun i hi1 hi2 => hfail i (by omega) hi2) herr
        refine ⟨ih.1, ?_⟩
        show (retryLoop f b m fuel (cA + 1)).calls + 1 = m - cA
        have h5 := ih.2
        omega

/-- Every wait performed by the loop is the backoff of the attempt it
follows. -/
theorem retryLoop_waits {E A : Type} (f : Nat → Except E A) (b : Nat → Nat)
    (m : Nat) : ∀ (fuel cA n w : Nat),
      (retryLoop f b m fuel cA).waits[n]? = some w → w = b (cA + n + 1)
  | 0, cA, n, w, h => by simp [retryLoop] at h
  | fuel + 1, cA, n, w, h => by
    by_cases hcm : cA ≤ m
    · simp only [retryLoop, if_pos hcm] at h
      cases hfe : f (cA + 1) with
      | ok v => rw [hfe] at h; simp at h
      | error e =>
        rw [hfe] at h
        by_cases hk : cA + 1 = m
        · simp [hk] at h
        · simp only [if_neg hk] at h
          cases n with
          | zero =>
            simp only [List.getElem?_cons_zero, Option.some.injEq] at h
            subst h
            rfl
          | succ n' =>
            simp only [List.getElem?_cons_succ] at h
            have := retryLoop_waits f b m fuel (cA + 1) n' w h
            rw [this]
            congr 1
            omega
    · simp [retryLoop, hcm] at h

/-- C8: with the default attempt cap, the exponential-backoff retry wrapper
invokes the wrapped operation at most 5 times, returns the result of the
first invocation that succeeds, rethrows the 5th invocation's error when all
five fail (no 6th attempt), and the delay before retry n is 2^n * 100
milliseconds plus a random jitter below 100. -/
theorem retryDefault_spec {E A : Type} (f : Nat → Except E A) (j : Nat → Nat)
    (hj : ∀ n, j n < 100) :
    (retryWithExponentialBackoff f j none).calls ≤ 5 ∧
    (∀ (k : Nat) (v : A), 1 ≤ k → k ≤ 5 →
      (∀ i, 1 ≤ i → i < k → (f i).isOk = false) → f k = .ok v →
      (retryWithExponentialBackoff f j none).result = .ok v ∧
        (retryWithExponentialBackoff f j none).calls = k) ∧
    (∀ e5 : E, (∀ i, 1 ≤ i → i < 5 → (f i).isOk = false) → f 5 = .error e5 →
      (retryWithExponentialBackoff f j none).result =
        .error (RetryErr.thrown e5) ∧
        (retryWithExponentialBackoff f j none).calls = 5) ∧
    (∀ (n w : Nat), (retryWithExponentialBackoff f j none).waits[n]? = some w →
      w = 2 ^ (n + 1) * 100 + j (n + 1) ∧
      2 ^ (n + 1) * 100 ≤ w ∧ w < 2 ^ (n + 1) * 100 + 100) := by
  have hunfold : retryWithExponentialBackoff f j none =
      retryLoop f (fun it => 2 ^ it * 100 + j it) 5 6 0 := rfl
  rw [hunfold]
  refine ⟨?_, ?_, ?_, ?_⟩
  · simpa using retryLoop_calls_le f (fun it => 2 ^ it * 100 + j it) 5 6 0 (by omega)
  · intro k v h1 h2 hfail hok
    have h := retryLoop_first_success f (fun it => 2 ^ it * 100 + j it) 5 6 0 k v
      (by omega) h2 (by omega) (fun i hi1 hi2 => hfail i (by omega) hi2) hok
    simpa using h
  · intro e5 hfail herr
    have h := retryLoop_all_fail f (fun it => 2 ^ it * 100 + j it) 5 e5 6 0
      (by omega) (by omega) (fun i hi1 hi2 => hfail i (by omega) hi2) herr
    simpa using h
  · intro n w hw
    have hwv := retryLoop_waits f (fun it => 2 ^ it * 100 + j it) 5 6 0 n w hw
    have hb : w = 2 ^ (n + 1) * 100 + j (n + 1) := by simpa using hwv
    have hjn := hj (n + 1)
    exact ⟨hb, by omega, by omega⟩

/-- Witness for C8: an operation failing once then succeeding is invoked
exactly twice and its second result is returned. -/
theorem retryDefault_spec_witness :
    (∀ n, j3 n < 100) ∧
    (retryWithExponentialBackoff f2 j3 none).result = Except.ok 7 ∧
    (retryWithExponentialBackoff f2 j3 none).calls = 2 := by
  have hj : ∀ n, j3 n < 100 := fun _ => by norm_num [j3]
  have hmain := (retryDefault_spec f2 j3 hj).2.1 2 7 (by omega) (by omega)
    (fun i hi1 hi2 => by
      have hi : i = 1 := by omega
      subst hi
      rfl) rfl
  exact ⟨hj, hmain.1, hmain.2⟩
